import Mathlib

/-!
Verification of the pyvision3 video-motion-detection core: the fixed-capacity
image ring buffer (imagebuffer.py), the background-subtraction model family
(video_proc/backgroundsubtract.py) and the motion detector
(video_proc/motiondetection.py), shallowly embedded in Lean.

Images are modelled as flat lists of pixel intensities.  Frames coming out of
the video pipeline are uint8 numpy arrays, so uint8 pixels are natural numbers
below 256 and uint8 numpy subtraction wraps modulo 256.  The per-pixel median
estimates kept by the median models are float64 values that stay on the exact
half-integer grid, so they are modelled as rationals.
-/

set_option maxHeartbeats 1000000

namespace PyVision

/-- The ImageBuffer class of imagebuffer.py.  The Python object keeps a list
of N slots initialized to None, a fill count and the capacity N, so slots are
modelled as Option values: unfilled slots at the front hold none. -/
structure ImageBuffer (α : Type) where
  data : List (Option α)
  count : Nat
  maxN : Nat
  deriving Repr, DecidableEq

/-- ImageBuffer.__init__: data is a list of N None slots, count 0, max N. -/
def ImageBuffer.init (α : Type) (N : Nat) : ImageBuffer α :=
  ⟨List.replicate N none, 0, N⟩

/-- ImageBuffer.is_full: count equals the capacity. -/
def ImageBuffer.is_full {α : Type} (b : ImageBuffer α) : Bool :=
  b.count == b.maxN

/-- ImageBuffer.get_count. -/
def ImageBuffer.get_count {α : Type} (b : ImageBuffer α) : Nat :=
  b.count

/-- ImageBuffer.first: returns data[0], the front slot (which is a None
placeholder while the buffer is still filling). -/
def ImageBuffer.first {α : Type} (b : ImageBuffer α) : Option α :=
  b.data.headD none

/-- ImageBuffer.last: returns data[-1], the back slot. -/
def ImageBuffer.last {α : Type} (b : ImageBuffer α) : Option α :=
  b.data.getLastD none

/-- ImageBuffer.middle: returns data[int(count/2)]. -/
def ImageBuffer.middle {α : Type} (b : ImageBuffer α) : Option α :=
  b.data.getD (b.count / 2) none

/-- ImageBuffer.add: pop the front slot, append the new image at the back,
increment the count and cap it at the capacity. -/
def ImageBuffer.add {α : Type} (b : ImageBuffer α) (img : α) : ImageBuffer α :=
  ⟨b.data.tail ++ [some img],
   if b.maxN < b.count + 1 then b.maxN else b.count + 1,
   b.maxN⟩

/-- Adding a whole list of images in order, one ImageBuffer.add at a time. -/
def ImageBuffer.addAll {α : Type} (b : ImageBuffer α) (l : List α) : ImageBuffer α :=
  l.foldl ImageBuffer.add b

/-- Closed form for the slot list of a capacity-N buffer after the images of l
have been added in order: None padding in front, then the most recent
min(len l, N) images. -/
def bufData {α : Type} (N : Nat) (l : List α) : List (Option α) :=
  List.replicate (N - l.length) none ++ (l.drop (l.length - N)).map some

/-- uint8 subtraction as numpy performs it elementwise on uint8 arrays: the
result wraps modulo 256.  For uint8 operands a, b < 256 the machine result of
a - b is (a + 256 - b) % 256.  np.absolute is the identity on uint8 data. -/
def u8sub (a b : Nat) : Nat := (a + 256 - b) % 256

/-- FrameDifferenceModel._compute_bg_diff over three grayscale uint8 frames:
delta1 = np.absolute(cur_img - prev_img) and delta2 = np.absolute(next_img -
cur_img) computed in uint8 arithmetic (the subtraction wraps modulo 256 and
np.absolute is the identity), then the elementwise minimum of the two. -/
def computeBgDiffFD (prev cur next : List Nat) : List Nat :=
  List.zipWith min (List.zipWith u8sub cur prev) (List.zipWith u8sub next cur)

/-- The difference image the spec ascribes to FrameDifferenceModel, following
the claim text: elementwise min(abs(middle - first), abs(last - middle)) with
exact integer absolute differences. -/
def specFrameDiff (prev cur next : List Nat) : List Nat :=
  List.zipWith min
    (List.zipWith (fun a b => ((a : Int) - (b : Int)).natAbs) cur prev)
    (List.zipWith (fun a b => ((a : Int) - (b : Int)).natAbs) next cur)

/-- One pixel of the hard-threshold branch of AbstractBGModel.foreground_mask:
mask = (np.absolute(diff) > threshold) * 255, so 255 where the absolute
difference exceeds the threshold and 0 elsewhere. -/
def hardMaskPixel (T d : ℚ) : Nat := if T < |d| then 255 else 0

/-- Hard-threshold mask over a uint8 difference image (the Static and
FrameDifference models produce uint8 diffs). -/
def hardMaskN (T : ℚ) (diff : List Nat) : List Nat :=
  diff.map fun d => hardMaskPixel T (d : ℚ)

/-- Hard-threshold mask over a float difference image (the median models
produce float64 diffs, exact on the half-integer grid). -/
def hardMaskQ (T : ℚ) (diff : List ℚ) : List Nat :=
  diff.map fun d => hardMaskPixel T d

/-- ApproximateMedianModel._update_median at one pixel: the stored median
estimate moves up by 1 where the newest pixel exceeds it and down by 1 where
the newest pixel is below it. -/
def updateMedianPixel (c : Nat) (m : ℚ) : ℚ :=
  m + (if m < (c : ℚ) then 1 else 0) - (if (c : ℚ) < m then 1 else 0)

/-- ApproximateMedianModel._update_median over whole images. -/
def updateMedian (cur : List Nat) (ms : List ℚ) : List ℚ :=
  List.zipWith updateMedianPixel cur ms

/-- ApproximateMedianModel._compute_bg_diff: first update the median estimate
from the newest frame, only then return diff = newest frame - updated
estimate, together with the updated estimate (the mutated self._medians). -/
def computeBgDiffAM (cur : List Nat) (ms : List ℚ) : List ℚ × List ℚ :=
  let ms2 := updateMedian cur ms
  (List.zipWith (fun (c : Nat) (m : ℚ) => (c : ℚ) - m) cur ms2, ms2)

/-- Insert a value into an ascending list, keeping it sorted. -/
def insertAsc (x : Nat) : List Nat → List Nat
  | [] => [x]
  | y :: t => if x ≤ y then x :: y :: t else y :: insertAsc x t

/-- Ascending insertion sort, used to model the sorting inside np.median. -/
def sortAsc (l : List Nat) : List Nat := l.foldr insertAsc []

/-- np.median of a list of uint8 values as used by MedianModel: sort, then
take the middle element for an odd count and the mean of the two middle
elements for an even count (a float64 value, exact on half-integers). -/
def npMedian (xs : List Nat) : ℚ :=
  let s := sortAsc xs
  let n := xs.length
  if n % 2 = 1 then ((s.getD (n / 2) 0 : Nat) : ℚ)
  else (((s.getD (n / 2 - 1) 0 : Nat) : ℚ) + ((s.getD (n / 2) 0 : Nat) : ℚ)) / 2

/-- MedianModel._get_median_vals: per-pixel median across the stack of all
buffered frames (as_image_stack_BW followed by np.median along the frame
axis); the pixel count follows the first frame, as the stack size does. -/
def medianVals (buf : ImageBuffer (List Nat)) : List ℚ :=
  let frames := buf.data.map (fun f => f.getD [])
  (List.range (frames.headD []).length).map
    (fun i => npMedian (frames.map (fun f => f.getD i 0)))

/-- The background-subtraction object stored in MotionDetector._bgSubtract,
one constructor per concrete model class of backgroundsubtract.py.  The
ApproximateMedianModel carries its mutable per-pixel estimate self._medians.
The threshold lives in the detector and is passed to each mask computation;
soft thresholding is disabled by MotionDetector._init_bg_subtract
(soft_thresh=False), and the soft branch is embedded separately at pixel
level as softMaskPixel. -/
inductive BGSub where
  | staticM (bgArr : List Nat)
  | frameDiff
  | medianM
  | approxMedian (medians : List ℚ)
  deriving Repr, DecidableEq

/-- foreground_mask of the stored model over the current buffer: returns the
uint8 mask together with the model state after the call.  StaticModel diffs
the last frame against its fixed reference in uint8 arithmetic; the median
model recomputes the exact medians on every call; only the approximate median
model changes its state, by nudging self._medians before diffing. -/
def fgMaskStep (T : ℚ) (buf : ImageBuffer (List Nat)) : BGSub → List Nat × BGSub
  | .staticM bg =>
      (hardMaskN T (List.zipWith u8sub (buf.last.getD []) bg), .staticM bg)
  | .frameDiff =>
      (hardMaskN T (computeBgDiffFD (buf.first.getD []) (buf.middle.getD []) (buf.last.getD [])),
       .frameDiff)
  | .medianM =>
      (hardMaskQ T (List.zipWith (fun (c : Nat) (m : ℚ) => (c : ℚ) - m) (buf.last.getD []) (medianVals buf)),
       .medianM)
  | .approxMedian ms =>
      (hardMaskQ T (computeBgDiffAM (buf.last.getD []) ms).1,
       .approxMedian (computeBgDiffAM (buf.last.getD []) ms).2)

/-- The float the soft-threshold branch computes at one pixel before the
uint8 cast: mask = 1 - e^(-(1.0 * diff) / threshold), then mask * 255.  Note
the source applies the exponential to the signed diff, not to its absolute
value. -/
noncomputable def softMaskVal (T d : ℝ) : ℝ := (1 - Real.exp (-d / T)) * 255

/-- One pixel of the soft-threshold mask: the numpy astype uint8 cast
truncates the float toward zero, which agrees with the floor on the
nonnegative range [0, 256) reached for nonnegative diffs. -/
noncomputable def softMaskPixel (T d : ℝ) : ℤ := ⌊softMaskVal T d⌋

/-- The soft mask the spec describes, following the claim text:
round(255 * (1 - e^(-abs(diff) / T))). -/
noncomputable def specSoftMaskPixel (T d : ℝ) : ℤ :=
  round ((255 : ℝ) * (1 - Real.exp (-|d| / T)))

/-- Method tag constants from backgroundsubtract.py. -/
def BG_SUBTRACT_STATIC : String := "BG_SUBTRACT_STATIC"

def BG_SUBTRACT_FRAME_DIFF : String := "BG_SUBTRACT_FD"

def BG_SUBTRACT_MEDIAN : String := "BG_SUBTRACT_MM"

def BG_SUBTRACT_APPROX_MEDIAN : String := "BG_SUBTRACT_AM"

/-- Rectangle type constants from motiondetection.py. -/
def MD_BOUNDING_RECTS : String := "BOUNDING_RECTS"

def MD_STANDARDIZED_RECTS : String := "STANDARDIZED_RECTS"

/-- A contour of the foreground mask.  Modelled from the spec: contour
extraction, contour area and moment computation are external collaborators
(cv2.findContours, cv2.contourArea, cv2.moments), so a contour carries its
point list together with the area and moment values the external primitives
report for it. -/
structure Contour where
  points : List (Int × Int)
  area : ℚ
  m00 : ℚ
  m01 : ℚ
  m10 : ℚ
  mu02 : ℚ
  mu20 : ℚ

/-- A detection rectangle: pv3.Rect(x, y, w, h) from a bounding box, or
pv3.CenteredRect(cx, cy, w, h) from moment statistics. -/
inductive Rect where
  | plain (x y w h : Int)
  | centered (cx cy w h : ℝ)

/-- Modelled from the spec: cv2.boundingRect, the minimal axis-aligned box of
the contour points. -/
def boundingRectOf (c : Contour) : Rect :=
  match c.points with
  | [] => .plain 0 0 0 0
  | p :: ps =>
      let x0 := (ps.map Prod.fst).foldl min p.1
      let y0 := (ps.map Prod.snd).foldl min p.2
      let x1 := (ps.map Prod.fst).foldl max p.1
      let y1 := (ps.map Prod.snd).foldl max p.2
      .plain x0 y0 (x1 - x0 + 1) (y1 - y0 + 1)

/-- The rectangle MotionDetector.standardized_rects builds for one contour:
centroid from the first-order moments, width and height
2 * sigma * sqrt(mu / m00) from the second-order central moments. -/
noncomputable def stdRectOf (sigma : ℚ) (c : Contour) : Rect :=
  .centered ((c.m10 : ℝ) / (c.m00 : ℝ)) ((c.m01 : ℝ) / (c.m00 : ℝ))
    (2 * (sigma : ℝ) * Real.sqrt ((c.mu20 : ℝ) / (c.m00 : ℝ)))
    (2 * (sigma : ℝ) * Real.sqrt ((c.mu02 : ℝ) / (c.m00 : ℝ)))

/-- The MotionDetector state: the buffer, the immutable configuration, and
the mutable fields _bgSubtract, _contours, _annotateImg and _fgMask.  The
optional bg_image keyword (forwarded to StaticModel) and the optional caller
rectangle filter belong to the configuration.  Convex hulls are not modelled;
no claim concerns them. -/
structure MDState where
  buffer : ImageBuffer (List Nat)
  thresh : ℚ
  method : String
  minArea : ℚ
  rectFilter : Option (List Rect → List Rect)
  rectType : String
  rectSigma : ℚ
  bgImage : Option (List Nat)
  bgSubtract : Option BGSub
  contours : List Contour
  annotateImg : Option (List Nat)
  fgMask : Option (List Nat)

/-- StaticModel.__init__: raises a ValueError when no background image is
supplied, otherwise stores the grayscale reference. -/
def staticModelInit (bg : Option (List Nat)) : Except String BGSub :=
  match bg with
  | none => .error "You must supply a background image for use with the StaticModel"
  | some b => .ok (.staticM b)

/-- ApproximateMedianModel.__init__: raises a ValueError when the buffer is
not yet full, otherwise seeds the estimate with the exact buffer medians. -/
def approxMedianInit (buf : ImageBuffer (List Nat)) : Except String BGSub :=
  if buf.is_full then .ok (.approxMedian (medianVals buf))
  else .error "Image Buffer must be full before initializing Approx. Median Filter."

/-- MotionDetector._init_bg_subtract: dispatches on the method string and
raises a ValueError for an unrecognized method. -/
def initBgSubtract (s : MDState) : Except String BGSub :=
  if s.method = BG_SUBTRACT_FRAME_DIFF then .ok .frameDiff
  else if s.method = BG_SUBTRACT_STATIC then staticModelInit s.bgImage
  else if s.method = BG_SUBTRACT_MEDIAN then .ok .medianM
  else if s.method = BG_SUBTRACT_APPROX_MEDIAN then approxMedianInit s.buffer
  else .error "Unknown Background Subtraction Method specified."

/-- MotionDetector.__init__ with image_buffer=None: creates an empty buffer
of the requested size and leaves the mask, key frame, contour list and
background-subtraction object unset. -/
def mdInitState (buffSize : Nat) (thresh : ℚ) (method : String) (minArea : ℚ)
    (rectFilter : Option (List Rect → List Rect)) (rectType : String)
    (rectSigma : ℚ) (bgImage : Option (List Nat)) : MDState :=
  { buffer := ImageBuffer.init (List Nat) buffSize
    thresh := thresh
    method := method
    minArea := minArea
    rectFilter := rectFilter
    rectType := rectType
    rectSigma := rectSigma
    bgImage := bgImage
    bgSubtract := none
    contours := []
    annotateImg := none
    fgMask := none }

/-- MotionDetector.__init__ has no failure path in the source; it is modelled
in Except so that claims about construction-time errors can be stated. -/
def mdInit (buffSize : Nat) (thresh : ℚ) (method : String) (minArea : ℚ)
    (rectFilter : Option (List Rect → List Rect)) (rectType : String)
    (rectSigma : ℚ) (bgImage : Option (List Nat)) : Except String MDState :=
  .ok (mdInitState buffSize thresh method minArea rectFilter rectType rectSigma bgImage)

/-- MotionDetector.detect: pushes the frame into the buffer; while the buffer
is not yet full it returns the sentinel -1 and does nothing else.  Once the
buffer is full it lazily constructs the background-subtraction object on the
first such call (where an unknown method or a bad model configuration
raises), picks the key frame (middle frame for frame differencing, last
otherwise), computes the model mask, runs the external morphology pass
(blur, dilate, erode) and the external contour extraction over it, and
returns the number of contours found.  The two external cv2 stages are
parameters: morph is the morphological smoothing applied to the mask and
findCont the contour extraction (modelled from the spec; cv2 is an external
collaborator). -/
def detect (morph : List Nat → List Nat) (findCont : List Nat → List Contour)
    (s : MDState) (img : List Nat) : Except String (Int × MDState) :=
  let buf := s.buffer.add img
  let s1 : MDState := { s with buffer := buf }
  if ¬ buf.is_full then .ok (-1, s1)
  else
    match (match s1.bgSubtract with
           | none => initBgSubtract s1
           | some b => Except.ok b) with
    | .error e => .error e
    | .ok bg =>
        let annotate := if s1.method = BG_SUBTRACT_FRAME_DIFF then buf.middle else buf.last
        let mb := fgMaskStep s1.thresh buf bg
        let cleaned := morph mb.1
        let conts := findCont cleaned
        .ok ((conts.length : Int),
             { s1 with bgSubtract := some mb.2, annotateImg := annotate,
                       fgMask := some cleaned, contours := conts })

/-- MotionDetector.detect iterated over a stream of frames, collecting the
returned codes. -/
def runDetects (morph : List Nat → List Nat) (findCont : List Nat → List Contour) :
    MDState → List (List Nat) → Except String (List Int × MDState)
  | s, [] => .ok ([], s)
  | s, img :: rest =>
      match detect morph findCont s img with
      | .error e => .error e
      | .ok (code, s2) =>
          match runDetects morph findCont s2 rest with
          | .error e => .error e
          | .ok (codes, s3) => .ok (code :: codes, s3)

/-- MotionDetector.key_frame: the stored annotation image. -/
def key_frame (s : MDState) : Option (List Nat) := s.annotateImg

/-- MotionDetector.foreground_mask: the stored mask. -/
def foreground_mask (s : MDState) : Option (List Nat) := s.fgMask

/-- MotionDetector.foreground_pixels: explicitly guarded to return None while
no mask has been computed; otherwise composites the key-frame pixels over the
requested background color wherever the mask is nonzero (the three-channel
color compositing of the source is collapsed to one channel here). -/
def foreground_pixels (s : MDState) (bgColor : Option Nat) : Option (List Nat) :=
  match s.fgMask with
  | none => none
  | some mask =>
      some (List.zipWith (fun mv iv => if mv ≠ 0 then iv else bgColor.getD 0)
              mask (s.annotateImg.getD []))

/-- MotionDetector.bounding_rects: bounding boxes of the contours whose area
strictly exceeds min_area, then the optional caller filter over the list. -/
def bounding_rects (s : MDState) : List Rect :=
  let rects := (s.contours.filter (fun c => s.minArea < c.area)).map boundingRectOf
  match s.rectFilter with
  | none => rects
  | some f => f rects

/-- MotionDetector.standardized_rects: moment-based centered boxes of the
contours whose area strictly exceeds min_area, then the optional filter. -/
noncomputable def standardized_rects (s : MDState) : List Rect :=
  let rects := (s.contours.filter (fun c => s.minArea < c.area)).map (stdRectOf s.rectSigma)
  match s.rectFilter with
  | none => rects
  | some f => f rects

/-- MotionDetector.get_rects: dispatches on the configured rectangle type and
raises a ValueError for an unrecognized type. -/
noncomputable def get_rects (s : MDState) : Except String (List Rect) :=
  if s.rectType = MD_BOUNDING_RECTS then .ok (bounding_rects s)
  else if s.rectType = MD_STANDARDIZED_RECTS then .ok (standardized_rects s)
  else .error ("Unknown rect type: " ++ s.rectType)

/-- MotionDetector.polygons: one polygon (its vertex list) per contour
passing the area filter; return_all=True bypasses the filter. -/
def polygons (s : MDState) (return_all : Bool) : List (List (Int × Int)) :=
  (s.contours.filter (fun c => return_all || decide (s.minArea < c.area))).map Contour.points

section Theorems

variable {α : Type}

theorem ImageBuffer.addAll_snoc (b : ImageBuffer α) (l : List α) (x : α) :
    b.addAll (l ++ [x]) = (b.addAll l).add x := by
  simp [ImageBuffer.addAll, List.foldl_append]

theorem bufData_snoc (N : Nat) (hN : 1 ≤ N) (l : List α) (x : α) :
    (bufData N l).tail ++ [some x] = bufData N (l ++ [x]) := by
  rcases lt_or_ge l.length N with h | h
  · have h1 : N - l.length = (N - (l.length + 1)) + 1 := by omega
    have h2 : l.length - N = 0 := by omega
    have h3 : l.length + 1 - N = 0 := by omega
    simp [bufData, h1, h2, h3, List.replicate_succ, List.map_append, List.append_assoc]
  · have h1 : N - l.length = 0 := by omega
    have h2 : N - (l.length + 1) = 0 := by omega
    have h3 : l.length + 1 - N = (l.length - N) + 1 := by omega
    have h4 : l.length - N + 1 ≤ l.length := by omega
    simp only [bufData, h1, List.length_append, List.length_singleton, h2, h3,
      List.replicate_zero, List.nil_append]
    rw [List.drop_append_of_le_length h4]
    rw [← List.map_tail, ← List.drop_one, List.drop_drop, List.map_append]
    simp [Nat.add_comm]

theorem ImageBuffer.addAll_init (N : Nat) (hN : 1 ≤ N) (l : List α) :
    (ImageBuffer.init α N).addAll l = ⟨bufData N l, min l.length N, N⟩ := by
  induction l using List.reverseRecOn with
  | nil => simp [ImageBuffer.addAll, ImageBuffer.init, bufData]
  | append_singleton l x ih =>
      rw [ImageBuffer.addAll_snoc, ih]
      simp only [ImageBuffer.add, ImageBuffer.mk.injEq]
      refine ⟨bufData_snoc N hN l x, ?_, trivial⟩
      simp only [List.length_append, List.length_singleton]
      split <;> omega

theorem ImageBuffer.addAll_init_full (N : Nat) (hN : 1 ≤ N) (l : List α)
    (hl : l.length = N) :
    (ImageBuffer.init α N).addAll l = ⟨l.map some, N, N⟩ := by
  rw [ImageBuffer.addAll_init N hN l]
  simp [bufData, hl]

theorem headD_map_some (l : List α) : (l.map some).headD none = l.head? := by
  cases l <;> simp

theorem getLastD_map_some (l : List α) : (l.map some).getLastD none = l.getLast? := by
  cases h : l.getLast? <;> simp [h]

theorem getD_map_some (l : List α) (i : Nat) : (l.map some).getD i none = l[i]? := by
  cases h : l[i]? <;> simp [h]

theorem getLast?_drop_ne_nil (l : List α) (k : Nat) (h : l.drop k ≠ []) :
    (l.drop k).getLast? = l.getLast? := by
  conv_rhs => rw [← List.take_append_drop k l]
  rw [List.getLast?_append]
  cases hx : (l.drop k).getLast? with
  | none => exact absurd (List.getLast?_eq_none_iff.mp hx) h
  | some a => rfl

/-- Claim C1: for any capacity N at least 1 and any N frames, after adding
exactly the N frames to a fresh capacity-N ImageBuffer, is_full is true, first
returns the 1st added frame and last the Nth; adding one more frame evicts
exactly the oldest slot (the slots become frames 2..N followed by the new
frame), so first then returns the 2nd added frame and last the newest one,
while the count stays capped at N. -/
theorem imagebuffer_fill_and_evict {α : Type} (N : Nat) (hN : 1 ≤ N)
    (frames : List α) (hlen : frames.length = N) (g : α) :
    ((ImageBuffer.init α N).addAll frames).is_full = true ∧
    ((ImageBuffer.init α N).addAll frames).get_count = N ∧
    ((ImageBuffer.init α N).addAll frames).first = frames.head? ∧
    ((ImageBuffer.init α N).addAll frames).last = frames.getLast? ∧
    (((ImageBuffer.init α N).addAll frames).add g).data = (frames.drop 1 ++ [g]).map some ∧
    (((ImageBuffer.init α N).addAll frames).add g).first = (frames ++ [g])[1]? ∧
    (((ImageBuffer.init α N).addAll frames).add g).last = some g ∧
    (((ImageBuffer.init α N).addAll frames).add g).get_count = N := by
  obtain ⟨a, t, rfl⟩ : ∃ a t, frames = a :: t := by
    cases frames with
    | nil => simp at hlen; omega
    | cons a t => exact ⟨a, t, rfl⟩
  rw [ImageBuffer.addAll_init_full N hN _ hlen]
  refine ⟨?_, rfl, ?_, ?_, ?_, ?_, ?_, ?_⟩
  · simp [ImageBuffer.is_full]
  · exact headD_map_some _
  · exact getLastD_map_some _
  · simp [ImageBuffer.add, List.map_append]
  · cases t <;> simp [ImageBuffer.add, ImageBuffer.first, List.head?_eq_getElem?]
  · simp [ImageBuffer.add, ImageBuffer.last, List.getLast?_concat]
  · simp [ImageBuffer.add, ImageBuffer.get_count]

theorem imagebuffer_fill_and_evict_witness :
    1 ≤ 2 ∧ ([10, 20] : List Nat).length = 2 ∧
    (((ImageBuffer.init Nat 2).addAll [10, 20]).is_full = true ∧
     ((ImageBuffer.init Nat 2).addAll [10, 20]).get_count = 2 ∧
     ((ImageBuffer.init Nat 2).addAll [10, 20]).first = ([10, 20] : List Nat).head? ∧
     ((ImageBuffer.init Nat 2).addAll [10, 20]).last = ([10, 20] : List Nat).getLast? ∧
     (((ImageBuffer.init Nat 2).addAll [10, 20]).add 30).data =
        (([10, 20] : List Nat).drop 1 ++ [30]).map some ∧
     (((ImageBuffer.init Nat 2).addAll [10, 20]).add 30).first =
        (([10, 20] : List Nat) ++ [30])[1]? ∧
     (((ImageBuffer.init Nat 2).addAll [10, 20]).add 30).last = some 30 ∧
     (((ImageBuffer.init Nat 2).addAll [10, 20]).add 30).get_count = 2) :=
  ⟨by decide, by decide, imagebuffer_fill_and_evict 2 (by decide) [10, 20] (by decide) 30⟩

/-- Claim C9 counterexample: a capacity-2 buffer holding one added frame has
count 1, yet first and middle return the None placeholder of the unfilled
front slot rather than the single added frame, so the accessors do not index
among the frames actually added while the buffer is partially filled. -/
theorem imagebuffer_first_partial_cex :
    ((ImageBuffer.init Nat 2).addAll [10]).get_count = 1 ∧
    ((ImageBuffer.init Nat 2).addAll [10]).first = none ∧
    ((ImageBuffer.init Nat 2).addAll [10]).middle = none ∧
    ¬ ((ImageBuffer.init Nat 2).addAll [10]).first = some 10 ∧
    ¬ ((ImageBuffer.init Nat 2).addAll [10]).middle = some 10 := by
  decide

/-- Claim C9 (amended): once the buffer is full (count C = N), first, middle
and last return the added frames at positions 0, C/2 rounded down, and C-1;
on a partially filled buffer the front slots still hold the None placeholders
(so first and middle need not return an added frame, see the counterexample),
while last returns the most recently added frame as soon as at least one frame
has been added. -/
theorem imagebuffer_accessor_positions {α : Type} (N : Nat) (hN : 1 ≤ N) :
    (∀ frames : List α, frames.length = N →
      ((ImageBuffer.init α N).addAll frames).first = frames[0]? ∧
      ((ImageBuffer.init α N).addAll frames).middle = frames[N / 2]? ∧
      ((ImageBuffer.init α N).addAll frames).last = frames[N - 1]?) ∧
    (∀ frames : List α, frames ≠ [] →
      ((ImageBuffer.init α N).addAll frames).last = frames.getLast?) := by
  constructor
  · intro frames hlen
    rw [ImageBuffer.addAll_init_full N hN _ hlen]
    refine ⟨?_, ?_, ?_⟩
    · rw [ImageBuffer.first, headD_map_some, List.head?_eq_getElem?]
    · rw [ImageBuffer.middle, getD_map_some]
    · rw [ImageBuffer.last, getLastD_map_some, List.getLast?_eq_getElem?, hlen]
  · intro frames hne
    rw [ImageBuffer.addAll_init N hN frames]
    show (bufData N frames).getLastD none = frames.getLast?
    have hd : frames.drop (frames.length - N) ≠ [] := by
      have hlen : (frames.drop (frames.length - N)).length = frames.length - (frames.length - N) :=
        List.length_drop _ _
      have hpos : 0 < frames.length := List.length_pos.mpr hne
      intro hc
      rw [hc] at hlen
      simp at hlen
      omega
    have h5 : (frames.drop (frames.length - N)).getLast? = frames.getLast? :=
      getLast?_drop_ne_nil frames _ hd
    obtain ⟨a, ha⟩ : ∃ a, frames.getLast? = some a := by
      cases hx : frames.getLast? with
      | none => exact absurd (List.getLast?_eq_none_iff.mp hx) hne
      | some a => exact ⟨a, rfl⟩
    rw [bufData, List.getLastD_eq_getLast?, List.getLast?_append, List.getLast?_map, h5, ha]
    rfl

theorem imagebuffer_accessor_positions_witness :
    (((ImageBuffer.init Nat 3).addAll [7, 8, 9]).first = ([7, 8, 9] : List Nat)[0]? ∧
     ((ImageBuffer.init Nat 3).addAll [7, 8, 9]).middle = ([7, 8, 9] : List Nat)[3 / 2]? ∧
     ((ImageBuffer.init Nat 3).addAll [7, 8, 9]).last = ([7, 8, 9] : List Nat)[3 - 1]?) ∧
    ((ImageBuffer.init Nat 3).addAll [7, 8]).last = ([7, 8] : List Nat).getLast? :=
  ⟨(imagebuffer_accessor_positions 3 (by decide)).1 [7, 8, 9] (by decide),
   (imagebuffer_accessor_positions 3 (by decide)).2 [7, 8] (by decide)⟩

/-- Claim C2 counterexample: over a full, unchanged capacity-1 buffer whose
single frame has pixel value 10, an ApproximateMedianModel with stored median
estimate 0 and threshold 8 returns the mask [255] on a first foreground_mask
call but [0] on the immediately following call with no intervening add, and
the first call replaces the stored estimate, so foreground_mask is not a pure
function of the buffer contents. -/
theorem approx_median_mask_not_pure_cex :
    ((ImageBuffer.init (List Nat) 1).addAll [[10]]).is_full = true ∧
    (fgMaskStep 8 ((ImageBuffer.init (List Nat) 1).addAll [[10]]) (.approxMedian [0])).1 = [255] ∧
    (fgMaskStep 8 ((ImageBuffer.init (List Nat) 1).addAll [[10]])
      ((fgMaskStep 8 ((ImageBuffer.init (List Nat) 1).addAll [[10]]) (.approxMedian [0])).2)).1
      = [0] ∧
    (fgMaskStep 8 ((ImageBuffer.init (List Nat) 1).addAll [[10]]) (.approxMedian [0])).2
      ≠ .approxMedian [0] := by
  refine ⟨by decide, ?_, ?_, ?_⟩ <;>
    norm_num [fgMaskStep, ImageBuffer.addAll, ImageBuffer.init, ImageBuffer.add,
      ImageBuffer.last, ImageBuffer.is_full, computeBgDiffAM, updateMedian,
      updateMedianPixel, hardMaskQ, hardMaskPixel]

/-- Claim C2 (amended): the Static, FrameDifference and Median models are
pure functions of the buffer contents once their preconditions hold: a
foreground_mask call leaves the model state unchanged, and two consecutive
calls over an unchanged buffer return equal masks.  The ApproximateMedianModel
is the exception: every call rewrites its stored median estimate, so its
consecutive masks can differ (see the counterexample). -/
theorem bg_models_pure_except_approx_median (T : ℚ) (buf : ImageBuffer (List Nat))
    (m : BGSub) (h : ∀ ms, m ≠ BGSub.approxMedian ms) :
    (fgMaskStep T buf m).2 = m ∧
    (fgMaskStep T buf ((fgMaskStep T buf m).2)).1 = (fgMaskStep T buf m).1 := by
  cases m with
  | staticM bg => exact ⟨rfl, rfl⟩
  | frameDiff => exact ⟨rfl, rfl⟩
  | medianM => exact ⟨rfl, rfl⟩
  | approxMedian ms => exact absurd rfl (h ms)

theorem bg_models_pure_except_approx_median_witness :
    (fgMaskStep 80 (ImageBuffer.init (List Nat) 1) BGSub.frameDiff).2 = BGSub.frameDiff ∧
    (fgMaskStep 80 (ImageBuffer.init (List Nat) 1)
      ((fgMaskStep 80 (ImageBuffer.init (List Nat) 1) BGSub.frameDiff).2)).1 =
      (fgMaskStep 80 (ImageBuffer.init (List Nat) 1) BGSub.frameDiff).1 :=
  bg_models_pure_except_approx_median 80 _ BGSub.frameDiff (fun _ h => nomatch h)

/-- Claim C4 at the failing input: for the single-pixel uint8 frames
first=20, middle=10, last=30, the source computes the uint8-wrapped
differences min((10 - 20) mod 256, (30 - 10) mod 256) = min(246, 20) = 20,
while the claim and the FrameDifferenceModel docstring prescribe
min(abs(10 - 20), abs(30 - 10)) = min(10, 20) = 10: numpy uint8 subtraction
wraps modulo 256 and np.absolute is the identity on uint8 data. -/
theorem frame_diff_uint8_wrap_bug :
    computeBgDiffFD [20] [10] [30] = [20] ∧
    specFrameDiff [20] [10] [30] = [10] ∧
    computeBgDiffFD [20] [10] [30] ≠ specFrameDiff [20] [10] [30] := by
  decide

theorem zipWith_zipWith_same {α β γ δ : Type} (f : α → γ → δ) (g : α → β → γ)
    (l1 : List α) (l2 : List β) :
    List.zipWith f l1 (List.zipWith g l1 l2) = List.zipWith (fun a b => f a (g a b)) l1 l2 := by
  induction l1 generalizing l2 with
  | nil => simp
  | cons a t ih => cases l2 <;> simp [ih]

/-- Claim C5: the approximate-median update law at each pixel: the estimate
moves by exactly +1 where the newest pixel exceeds it, -1 where the newest
pixel is below it and 0 where they are equal; hence it moves by at most one
intensity unit toward the newest value, lands exactly on it when it started
one unit away (and, for estimates on the integer grid, whenever it started
within one unit), and _compute_bg_diff takes the difference against the
already-updated estimate, not the old one. -/
theorem approx_median_update_law (c : Nat) (m : ℚ) :
    ((m < (c : ℚ) → updateMedianPixel c m = m + 1) ∧
     ((c : ℚ) < m → updateMedianPixel c m = m - 1) ∧
     ((c : ℚ) = m → updateMedianPixel c m = m)) ∧
    |updateMedianPixel c m - m| ≤ 1 ∧
    (|(c : ℚ) - m| = 1 → updateMedianPixel c m = (c : ℚ)) ∧
    ((∃ k : ℤ, m = (k : ℚ)) → |(c : ℚ) - m| ≤ 1 → updateMedianPixel c m = (c : ℚ)) ∧
    (∀ cur ms, (computeBgDiffAM cur ms).1 =
       List.zipWith (fun (a : Nat) (b : ℚ) => (a : ℚ) - updateMedianPixel a b) cur ms) := by
  refine ⟨⟨?_, ?_, ?_⟩, ?_, ?_, ?_, ?_⟩
  · intro h
    rw [updateMedianPixel, if_pos h, if_neg (asymm h)]
    ring
  · intro h
    rw [updateMedianPixel, if_neg (asymm h), if_pos h]
    ring
  · intro h
    rw [updateMedianPixel, if_neg (h ▸ lt_irrefl m), if_neg (h ▸ lt_irrefl m)]
    ring
  · rcases lt_trichotomy m ((c : ℚ)) with h | h | h
    · rw [updateMedianPixel, if_pos h, if_neg (asymm h)]
      rw [show m + 1 - 0 - m = 1 by ring]
      norm_num
    · rw [updateMedianPixel, if_neg (h ▸ lt_irrefl m), if_neg (h ▸ lt_irrefl m)]
      rw [show m + 0 - 0 - m = 0 by ring]
      norm_num
    · rw [updateMedianPixel, if_neg (asymm h), if_pos h]
      rw [show m + 0 - 1 - m = -1 by ring]
      norm_num
  · intro h
    rcases (abs_eq (by norm_num : (0 : ℚ) ≤ 1)).mp h with h1 | h1
    · have hm : m < (c : ℚ) := by linarith
      rw [updateMedianPixel, if_pos hm, if_neg (asymm hm)]
      linarith
    · have hm : (c : ℚ) < m := by linarith
      rw [updateMedianPixel, if_neg (asymm hm), if_pos hm]
      linarith
  · rintro ⟨k, rfl⟩ h
    rw [abs_le] at h
    rcases lt_trichotomy ((k : ℚ)) ((c : ℚ)) with hm | hm | hm
    · have hk : k < (c : ℤ) := by exact_mod_cast hm
      have hk2 : ((k : ℚ) + 1) ≤ (c : ℚ) := by exact_mod_cast hk
      rw [updateMedianPixel, if_pos hm, if_neg (asymm hm)]
      linarith [h.2]
    · rw [updateMedianPixel, if_neg (hm ▸ lt_irrefl _), if_neg (hm ▸ lt_irrefl _)]
      linarith
    · have hk : (c : ℤ) < k := by exact_mod_cast hm
      have hk2 : ((c : ℚ) + 1) ≤ (k : ℚ) := by exact_mod_cast hk
      rw [updateMedianPixel, if_neg (asymm hm), if_pos hm]
      linarith [h.1]
  · intro cur ms
    rw [computeBgDiffAM]
    exact zipWith_zipWith_same _ _ cur ms

theorem approx_median_update_law_witness :
    ((4 : ℚ) < ((5 : Nat) : ℚ) ∧ updateMedianPixel 5 4 = 4 + 1) ∧
    (|((5 : Nat) : ℚ) - 4| = 1 ∧ updateMedianPixel 5 4 = ((5 : Nat) : ℚ)) :=
  ⟨⟨by norm_num, (approx_median_update_law 5 4).1.1 (by norm_num)⟩,
   ⟨by norm_num, (approx_median_update_law 5 4).2.2.1 (by norm_num)⟩⟩

theorem exp_neg_5780_bounds :
    (25 : ℝ) / 51 < Real.exp (-(57 / 80)) ∧ Real.exp (-(57 / 80)) ≤ 251 / 510 := by
  have hx : |(-(57 / 80) : ℝ)| ≤ 1 := by
    rw [abs_neg, abs_of_nonneg (by norm_num : (0 : ℝ) ≤ 57 / 80)]
    norm_num
  have hb := Real.exp_bound hx (n := 7) (by norm_num)
  have hf1 : Nat.factorial 0 = 1 := rfl
  have hf2 : Nat.factorial 1 = 1 := rfl
  have hf3 : Nat.factorial 2 = 2 := rfl
  have hf4 : Nat.factorial 3 = 6 := rfl
  have hf5 : Nat.factorial 4 = 24 := rfl
  have hf6 : Nat.factorial 5 = 120 := rfl
  have hf7 : Nat.factorial 6 = 720 := rfl
  have hf8 : Nat.factorial 7 = 5040 := rfl
  rw [Finset.sum_range_succ, Finset.sum_range_succ, Finset.sum_range_succ,
      Finset.sum_range_succ, Finset.sum_range_succ, Finset.sum_range_succ,
      Finset.sum_range_succ, Finset.sum_range_zero] at hb
  rw [hf1, hf2, hf3, hf4, hf5, hf6, hf7, hf8] at hb
  rw [abs_neg, abs_of_nonneg (by norm_num : (0 : ℝ) ≤ 57 / 80)] at hb
  norm_num at hb
  rw [abs_le] at hb
  constructor <;> linarith [hb.1, hb.2]

/-- Claim C3 counterexample: at threshold 80 and diff 57 the soft mask of the
source is 129 while the formula of the claim gives 130: the value
255 * (1 - e^(-57/80)) is about 129.94, the uint8 cast of the source
truncates it to 129, and the rounding prescribed by the claim yields 130. -/
theorem soft_mask_trunc_ne_round_cex :
    softMaskPixel 80 57 = 129 ∧ specSoftMaskPixel 80 57 = 130 ∧
    softMaskPixel 80 57 ≠ specSoftMaskPixel 80 57 := by
  obtain ⟨h1, h2⟩ := exp_neg_5780_bounds
  have e1 : softMaskPixel 80 57 = 129 := by
    rw [softMaskPixel, softMaskVal, show ((-(57 : ℝ)) / 80) = -(57 / 80) by ring]
    rw [Int.floor_eq_iff]
    constructor
    · push_cast
      nlinarith [h2]
    · push_cast
      nlinarith [h1]
  have e2 : specSoftMaskPixel 80 57 = 130 := by
    rw [specSoftMaskPixel, abs_of_nonneg (by norm_num : (0 : ℝ) ≤ 57),
        show ((-(57 : ℝ)) / 80) = -(57 / 80) by ring, round_eq]
    rw [Int.floor_eq_iff]
    constructor
    · push_cast
      nlinarith [h2]
    · push_cast
      nlinarith [h1]
  exact ⟨e1, e2, by rw [e1, e2]; decide⟩

/-- Claim C3 (amended): in hard mode the mask is binary with 255 exactly at
pixels whose absolute difference exceeds the threshold and 0 elsewhere, for
any difference value.  In soft mode the source applies the exponential to the
signed difference and the uint8 cast truncates instead of rounding, so for
nonnegative differences and positive threshold the pixel equals the floor of
255 * (1 - e^(-diff/T)), is nondecreasing in the difference, and lies in
[0, 255). -/
theorem foreground_mask_threshold_rules :
    (∀ T d : ℚ, (T < |d| → hardMaskPixel T d = 255) ∧
       (|d| ≤ T → hardMaskPixel T d = 0) ∧
       (hardMaskPixel T d = 0 ∨ hardMaskPixel T d = 255)) ∧
    (∀ T d1 d2 : ℝ, 0 < T → 0 ≤ d1 → d1 ≤ d2 →
       softMaskPixel T d1 ≤ softMaskPixel T d2) ∧
    (∀ T d : ℝ, 0 < T → 0 ≤ d → 0 ≤ softMaskPixel T d ∧ softMaskPixel T d < 255) := by
  refine ⟨?_, ?_, ?_⟩
  · intro T d
    refine ⟨fun h => ?_, fun h => ?_, ?_⟩
    · rw [hardMaskPixel, if_pos h]
    · rw [hardMaskPixel, if_neg (not_lt.mpr h)]
    · by_cases h : T < |d|
      · right
        rw [hardMaskPixel, if_pos h]
      · left
        rw [hardMaskPixel, if_neg h]
  · intro T d1 d2 hT h0 h12
    apply Int.floor_le_floor
    rw [softMaskVal, softMaskVal]
    have hmono : Real.exp (-d2 / T) ≤ Real.exp (-d1 / T) := by
      apply Real.exp_le_exp.mpr
      apply (div_le_div_iff_of_pos_right hT).mpr
      linarith
    nlinarith
  · intro T d hT h0
    constructor
    · rw [softMaskPixel]
      apply Int.le_floor.mpr
      push_cast
      rw [softMaskVal]
      have hle : Real.exp (-d / T) ≤ 1 := by
        rw [← Real.exp_zero]
        apply Real.exp_le_exp.mpr
        apply div_nonpos_of_nonpos_of_nonneg (neg_nonpos.mpr h0) hT.le
      nlinarith
    · rw [softMaskPixel]
      apply Int.floor_lt.mpr
      push_cast
      rw [softMaskVal]
      nlinarith [Real.exp_pos (-d / T)]

theorem foreground_mask_threshold_rules_witness :
    ((80 : ℚ) < |(100 : ℚ)| ∧ hardMaskPixel 80 100 = 255) ∧
    ((0 : ℝ) < 80 ∧ softMaskPixel 80 0 ≤ softMaskPixel 80 57) ∧
    (0 ≤ softMaskPixel 80 57 ∧ softMaskPixel 80 57 < 255) :=
  ⟨⟨by norm_num, (foreground_mask_threshold_rules.1 80 100).1 (by norm_num)⟩,
   ⟨by norm_num,
    foreground_mask_threshold_rules.2.1 80 0 57 (by norm_num) le_rfl (by norm_num)⟩,
   foreground_mask_threshold_rules.2.2 80 57 (by norm_num) (by norm_num)⟩

theorem detect_filling (morph : List Nat → List Nat) (findCont : List Nat → List Contour)
    (s : MDState) (img : List Nat) (h : (s.buffer.add img).is_full = false) :
    detect morph findCont s img = .ok (-1, { s with buffer := s.buffer.add img }) := by
  simp [detect, h]

theorem runDetects_filling (morph : List Nat → List Nat) (findCont : List Nat → List Contour)
    (N : Nat) (hN : 1 ≤ N) :
    ∀ (imgs l : List (List Nat)) (s : MDState),
      s.buffer = (ImageBuffer.init (List Nat) N).addAll l →
      l.length + imgs.length < N →
      runDetects morph findCont s imgs =
        .ok (List.replicate imgs.length (-1),
             { s with buffer := (ImageBuffer.init (List Nat) N).addAll (l ++ imgs) }) := by
  intro imgs
  induction imgs with
  | nil =>
      intro l s hbuf hlen
      rw [runDetects, List.append_nil, ← hbuf]
      simp
  | cons img rest ih =>
      intro l s hbuf hlen
      have hb1 : s.buffer.add img = (ImageBuffer.init (List Nat) N).addAll (l ++ [img]) := by
        rw [hbuf, ImageBuffer.addAll_snoc]
      simp only [List.length_cons] at hlen
      have hfull : (s.buffer.add img).is_full = false := by
        rw [hb1, ImageBuffer.addAll_init N hN]
        simp only [ImageBuffer.is_full, List.length_append, List.length_singleton]
        rw [beq_eq_false_iff_ne]
        omega
      have hlen2 : (l ++ [img]).length + rest.length < N := by
        simp only [List.length_append, List.length_singleton]
        omega
      rw [runDetects, detect_filling morph findCont s img hfull]
      dsimp only
      rw [ih (l ++ [img]) { s with buffer := s.buffer.add img } (by simpa using hb1) hlen2]
      dsimp only
      simp only [List.length_cons, List.replicate_succ]
      rw [List.append_cons l img rest]

/-- Claim C6 counterexample: constructing a MotionDetector with an
unrecognized background-subtraction method and an unrecognized rectangle type
does not raise anything: the constructor returns a normal state with no
background model; the errors only surface later, in detect and get_rects. -/
theorem md_construction_does_not_raise_cex :
    mdInit 5 80 "NOT_A_METHOD" 400 none "NOT_A_RECT_TYPE" 2 none =
      Except.ok (mdInitState 5 80 "NOT_A_METHOD" 400 none "NOT_A_RECT_TYPE" 2 none) ∧
    (mdInitState 5 80 "NOT_A_METHOD" 400 none "NOT_A_RECT_TYPE" 2 none).bgSubtract = none :=
  ⟨rfl, rfl⟩

/-- Claim C6 (amended): StaticModel without a reference image and
ApproximateMedianModel over a non-full buffer do fail at model construction;
MotionDetector construction itself never raises: an unrecognized
background-subtraction method only raises at the first detect call that
observes a full buffer (when the model is lazily constructed), and an
unrecognized rectangle type only raises when get_rects is called. -/
theorem config_error_sites :
    (staticModelInit none =
       Except.error "You must supply a background image for use with the StaticModel") ∧
    (∀ buf : ImageBuffer (List Nat), buf.is_full = false →
       approxMedianInit buf =
         Except.error "Image Buffer must be full before initializing Approx. Median Filter.") ∧
    (∀ (buffSize : Nat) (thresh minArea rectSigma : ℚ) (method rectType : String)
       (rectFilter : Option (List Rect → List Rect)) (bgImage : Option (List Nat)),
       mdInit buffSize thresh method minArea rectFilter rectType rectSigma bgImage =
         Except.ok (mdInitState buffSize thresh method minArea rectFilter rectType
                      rectSigma bgImage)) ∧
    (∀ (morph : List Nat → List Nat) (findCont : List Nat → List Contour)
       (s : MDState) (img : List Nat),
       s.bgSubtract = none →
       s.method ≠ BG_SUBTRACT_FRAME_DIFF → s.method ≠ BG_SUBTRACT_STATIC →
       s.method ≠ BG_SUBTRACT_MEDIAN → s.method ≠ BG_SUBTRACT_APPROX_MEDIAN →
       (s.buffer.add img).is_full = true →
       detect morph findCont s img =
         Except.error "Unknown Background Subtraction Method specified.") ∧
    (∀ s : MDState, s.rectType ≠ MD_BOUNDING_RECTS → s.rectType ≠ MD_STANDARDIZED_RECTS →
       get_rects s = Except.error ("Unknown rect type: " ++ s.rectType)) := by
  refine ⟨rfl, ?_, ?_, ?_, ?_⟩
  · intro buf h
    simp [approxMedianInit, h]
  · intro _ _ _ _ _ _ _ _
    rfl
  · intro morph findCont s img h0 h1 h2 h3 h4 hful
    simp [detect, hful, initBgSubtract, h0, h1, h2, h3, h4]
  · intro s h1 h2
    simp [get_rects, h1, h2]

theorem config_error_sites_witness :
    approxMedianInit (ImageBuffer.init (List Nat) 3) =
      Except.error "Image Buffer must be full before initializing Approx. Median Filter." ∧
    detect id (fun _ => [])
        (mdInitState 1 80 "NOT_A_METHOD" 400 none "BOUNDING_RECTS" 2 none) [7] =
      Except.error "Unknown Background Subtraction Method specified." ∧
    get_rects (mdInitState 1 80 "NOT_A_METHOD" 400 none "NOT_A_RECT_TYPE" 2 none) =
      Except.error ("Unknown rect type: " ++
        (mdInitState 1 80 "NOT_A_METHOD" 400 none "NOT_A_RECT_TYPE" 2 none).rectType) :=
  ⟨config_error_sites.2.1 _ (by decide),
   config_error_sites.2.2.2.1 id (fun _ => []) _ [7] rfl (by decide) (by decide)
     (by decide) (by decide) (by decide),
   config_error_sites.2.2.2.2 _ (by decide) (by decide)⟩

/-- Claim C7: for every MotionDetector configuration over a fresh capacity-N
buffer, a run of fewer than N detect calls returns the sentinel -1 on every
call and performs no further work: the final state differs from the initial
one only in the buffer, so the background model is still unconstructed and
the mask and key frame are still unset. -/
theorem detect_filling_returns_sentinel (morph : List Nat → List Nat)
    (findCont : List Nat → List Contour) (N : Nat) (hN : 1 ≤ N)
    (thresh minArea rectSigma : ℚ) (method rectType : String)
    (rectFilter : Option (List Rect → List Rect)) (bgImage : Option (List Nat))
    (imgs : List (List Nat)) (hk : imgs.length < N) :
    runDetects morph findCont
        (mdInitState N thresh method minArea rectFilter rectType rectSigma bgImage) imgs =
      Except.ok (List.replicate imgs.length (-1),
        { mdInitState N thresh method minArea rectFilter rectType rectSigma bgImage with
          buffer := (ImageBuffer.init (List Nat) N).addAll imgs }) ∧
    ({ mdInitState N thresh method minArea rectFilter rectType rectSigma bgImage with
       buffer := (ImageBuffer.init (List Nat) N).addAll imgs }).bgSubtract = none ∧
    ({ mdInitState N thresh method minArea rectFilter rectType rectSigma bgImage with
       buffer := (ImageBuffer.init (List Nat) N).addAll imgs }).fgMask = none ∧
    ({ mdInitState N thresh method minArea rectFilter rectType rectSigma bgImage with
       buffer := (ImageBuffer.init (List Nat) N).addAll imgs }).annotateImg = none := by
  refine ⟨?_, rfl, rfl, rfl⟩
  exact runDetects_filling morph findCont N hN imgs [] _ rfl (by simpa using hk)

theorem detect_filling_returns_sentinel_witness :
    runDetects id (fun _ => [])
        (mdInitState 2 80 "BG_SUBTRACT_AM" 400 none "BOUNDING_RECTS" 2 none) [[5]] =
      Except.ok (List.replicate 1 (-1),
        { mdInitState 2 80 "BG_SUBTRACT_AM" 400 none "BOUNDING_RECTS" 2 none with
          buffer := (ImageBuffer.init (List Nat) 2).addAll [[5]] }) ∧
    ({ mdInitState 2 80 "BG_SUBTRACT_AM" 400 none "BOUNDING_RECTS" 2 none with
       buffer := (ImageBuffer.init (List Nat) 2).addAll [[5]] }).bgSubtract = none ∧
    ({ mdInitState 2 80 "BG_SUBTRACT_AM" 400 none "BOUNDING_RECTS" 2 none with
       buffer := (ImageBuffer.init (List Nat) 2).addAll [[5]] }).fgMask = none ∧
    ({ mdInitState 2 80 "BG_SUBTRACT_AM" 400 none "BOUNDING_RECTS" 2 none with
       buffer := (ImageBuffer.init (List Nat) 2).addAll [[5]] }).annotateImg = none :=
  detect_filling_returns_sentinel id (fun _ => []) 2 (by decide) 80 400 2
    "BG_SUBTRACT_AM" "BOUNDING_RECTS" none none [[5]] (by decide)

/-- Claim C10: after any run of fewer detect calls than the buffer capacity,
the accessors fail soft rather than raising: key_frame and foreground_mask
return None and foreground_pixels returns None for every background color;
moreover the explicit guard in foreground_pixels returns None in any state in
which no mask has been computed. -/
theorem accessors_fail_soft_before_full (morph : List Nat → List Nat)
    (findCont : List Nat → List Contour) (N : Nat) (hN : 1 ≤ N)
    (thresh minArea rectSigma : ℚ) (method rectType : String)
    (rectFilter : Option (List Rect → List Rect)) (bgImage : Option (List Nat))
    (imgs : List (List Nat)) (hk : imgs.length < N) :
    (∀ codes s2,
       runDetects morph findCont
           (mdInitState N thresh method minArea rectFilter rectType rectSigma bgImage) imgs =
         Except.ok (codes, s2) →
       key_frame s2 = none ∧ foreground_mask s2 = none ∧
         ∀ bg, foreground_pixels s2 bg = none) ∧
    (∀ s : MDState, s.fgMask = none → ∀ bg, foreground_pixels s bg = none) := by
  constructor
  · intro codes s2 hrun
    rw [runDetects_filling morph findCont N hN imgs [] _ rfl (by simpa using hk)] at hrun
    obtain ⟨-, hs⟩ := Prod.mk.inj (Except.ok.inj hrun)
    subst hs
    exact ⟨rfl, rfl, fun bg => rfl⟩
  · intro s h bg
    simp [foreground_pixels, h]

theorem accessors_fail_soft_before_full_witness :
    (key_frame { mdInitState 2 80 "BG_SUBTRACT_AM" 400 none "BOUNDING_RECTS" 2 none with
                 buffer := (ImageBuffer.init (List Nat) 2).addAll [[5]] } = none ∧
     foreground_mask { mdInitState 2 80 "BG_SUBTRACT_AM" 400 none "BOUNDING_RECTS" 2 none with
                 buffer := (ImageBuffer.init (List Nat) 2).addAll [[5]] } = none ∧
     ∀ bg, foreground_pixels
         { mdInitState 2 80 "BG_SUBTRACT_AM" 400 none "BOUNDING_RECTS" 2 none with
           buffer := (ImageBuffer.init (List Nat) 2).addAll [[5]] } bg = none) ∧
    (∀ bg, foreground_pixels
        (mdInitState 2 80 "BG_SUBTRACT_AM" 400 none "BOUNDING_RECTS" 2 none) bg = none) :=
  ⟨(accessors_fail_soft_before_full id (fun _ => []) 2 (by decide) 80 400 2
      "BG_SUBTRACT_AM" "BOUNDING_RECTS" none none [[5]] (by decide)).1 _ _
      (runDetects_filling id (fun _ => []) 2 (by decide) [[5]] []
        (mdInitState 2 80 "BG_SUBTRACT_AM" 400 none "BOUNDING_RECTS" 2 none)
        rfl (by decide)),
   fun bg => (accessors_fail_soft_before_full id (fun _ => []) 2 (by decide) 80 400 2
      "BG_SUBTRACT_AM" "BOUNDING_RECTS" none none [[5]] (by decide)).2 _ rfl bg⟩

/-- Claim C8: with no caller rectangle filter configured, every rectangle
returned by bounding_rects, standardized_rects or get_rects and every polygon
returned by polygons with return_all left false is derived from a contour
whose area strictly exceeds min_area, while polygons with return_all=True
returns one polygon per contour regardless of area. -/
theorem min_area_filtering (s : MDState) (hf : s.rectFilter = none) :
    (∀ r ∈ bounding_rects s,
       ∃ c ∈ s.contours, s.minArea < c.area ∧ r = boundingRectOf c) ∧
    (∀ r ∈ standardized_rects s,
       ∃ c ∈ s.contours, s.minArea < c.area ∧ r = stdRectOf s.rectSigma c) ∧
    (∀ rects, get_rects s = Except.ok rects → ∀ r ∈ rects,
       ∃ c ∈ s.contours, s.minArea < c.area ∧
         (r = boundingRectOf c ∨ r = stdRectOf s.rectSigma c)) ∧
    (∀ p ∈ polygons s false, ∃ c ∈ s.contours, s.minArea < c.area ∧ p = c.points) ∧
    polygons s true = s.contours.map Contour.points := by
  have hb : ∀ r ∈ bounding_rects s,
      ∃ c ∈ s.contours, s.minArea < c.area ∧ r = boundingRectOf c := by
    intro r hr
    simp only [bounding_rects, hf, List.mem_map, List.mem_filter,
      decide_eq_true_eq] at hr
    obtain ⟨c, ⟨hc, ha⟩, he⟩ := hr
    exact ⟨c, hc, ha, he.symm⟩
  have hstd : ∀ r ∈ standardized_rects s,
      ∃ c ∈ s.contours, s.minArea < c.area ∧ r = stdRectOf s.rectSigma c := by
    intro r hr
    simp only [standardized_rects, hf, List.mem_map, List.mem_filter,
      decide_eq_true_eq] at hr
    obtain ⟨c, ⟨hc, ha⟩, he⟩ := hr
    exact ⟨c, hc, ha, he.symm⟩
  refine ⟨hb, hstd, ?_, ?_, ?_⟩
  · intro rects h r hr
    rw [get_rects] at h
    split_ifs at h with h1 h2
    · cases Except.ok.inj h
      obtain ⟨c, hc, ha, he⟩ := hb r hr
      exact ⟨c, hc, ha, Or.inl he⟩
    · cases Except.ok.inj h
      obtain ⟨c, hc, ha, he⟩ := hstd r hr
      exact ⟨c, hc, ha, Or.inr he⟩
  · intro p hp
    simp only [polygons, Bool.false_or, List.mem_map, List.mem_filter,
      decide_eq_true_eq] at hp
    obtain ⟨c, ⟨hc, ha⟩, he⟩ := hp
    exact ⟨c, hc, ha, he.symm⟩
  · simp [polygons]

theorem min_area_filtering_witness :
    (∀ r ∈ bounding_rects { mdInitState 5 80 "BG_SUBTRACT_AM" 4 none "BOUNDING_RECTS" 2 none
                            with contours := [⟨[(0, 0)], 9, 1, 1, 1, 1, 1⟩] },
       ∃ c ∈ [(⟨[(0, 0)], 9, 1, 1, 1, 1, 1⟩ : Contour)], (4 : ℚ) < c.area ∧
         r = boundingRectOf c) ∧
    (∀ r ∈ standardized_rects { mdInitState 5 80 "BG_SUBTRACT_AM" 4 none "BOUNDING_RECTS" 2 none
                                with contours := [⟨[(0, 0)], 9, 1, 1, 1, 1, 1⟩] },
       ∃ c ∈ [(⟨[(0, 0)], 9, 1, 1, 1, 1, 1⟩ : Contour)], (4 : ℚ) < c.area ∧
         r = stdRectOf 2 c) ∧
    (∀ rects, get_rects { mdInitState 5 80 "BG_SUBTRACT_AM" 4 none "BOUNDING_RECTS" 2 none
                          with contours := [⟨[(0, 0)], 9, 1, 1, 1, 1, 1⟩] } =
        Except.ok rects → ∀ r ∈ rects,
       ∃ c ∈ [(⟨[(0, 0)], 9, 1, 1, 1, 1, 1⟩ : Contour)], (4 : ℚ) < c.area ∧
         (r = boundingRectOf c ∨ r = stdRectOf 2 c)) ∧
    (∀ p ∈ polygons { mdInitState 5 80 "BG_SUBTRACT_AM" 4 none "BOUNDING_RECTS" 2 none
                      with contours := [⟨[(0, 0)], 9, 1, 1, 1, 1, 1⟩] } false,
       ∃ c ∈ [(⟨[(0, 0)], 9, 1, 1, 1, 1, 1⟩ : Contour)], (4 : ℚ) < c.area ∧ p = c.points) ∧
    polygons { mdInitState 5 80 "BG_SUBTRACT_AM" 4 none "BOUNDING_RECTS" 2 none
               with contours := [⟨[(0, 0)], 9, 1, 1, 1, 1, 1⟩] } true =
      [(⟨[(0, 0)], 9, 1, 1, 1, 1, 1⟩ : Contour)].map Contour.points :=
  min_area_filtering
    { mdInitState 5 80 "BG_SUBTRACT_AM" 4 none "BOUNDING_RECTS" 2 none
      with contours := [⟨[(0, 0)], 9, 1, 1, 1, 1, 1⟩] } rfl

end Theorems

end PyVision
